import Mathlib

/-!
# Verification of the NOAA Atlas 14 grid pipeline (`download_noaa_grids.py`)

A shallow embedding, in Lean 4, of the data model and operations of the
NOAA Atlas 14 precipitation-grid pipeline: zone resolution, download task
generation with retry/backoff, max-compositing mosaicking of per-zone
rasters, and derivation of 100-year confidence-bound grids from a
lognormal model.  Rasters are modelled as partial functions from pixel
coordinates to rational values (`none` = nodata), filenames as `String`s,
and the floating-point statistics of the confidence-interval engine as
real arithmetic.  Fallible code is modelled with `Except`/`Option`, and
the retry loop of the downloader as an explicit event trace.
-/

set_option autoImplicit false

namespace NOAA

/-! ## Raster values and max-compositing merge (`mosaic_list_of_rasters`)

A raster band is modelled as `Pixel → Option ℚ`: `some v` is a valid cell
value, `none` is the nodata sentinel (or a cell outside the raster's
footprint).  `rasterio.merge.merge(sources, method='max')` composites a
list of such bands cell-wise: a cell of the output is valid iff some
source is valid there, and its value is the maximum over the valid source
values.  This is the fold below (the library initialises the destination
to nodata and, source by source, copies values onto nodata cells and takes
`np.maximum` where both are valid, which is exactly a left fold of
`omax`). -/

/-- Pixel coordinates (row, column) in the common output grid. -/
abbrev Pixel : Type := ℤ × ℤ

/-- One raster band: `some v` at valid cells, `none` at nodata cells and
outside the raster's footprint. -/
abbrev Band : Type := Pixel → Option ℚ

/-- Cell-wise compositing step of `merge(..., method='max')`: nodata is
excluded, two valid values combine by maximum. -/
def omax : Option ℚ → Option ℚ → Option ℚ
  | none, y => y
  | some a, none => some a
  | some a, some b => some (max a b)

/-- The cell-wise semantics of `rasterio.merge.merge(sources, method='max')`
as called by `mosaic_list_of_rasters`. -/
def merge_max (sources : List Band) : Band :=
  fun p => sources.foldl (fun acc r => omax acc (r p)) none

/-! ## Configuration (`Config`) -/

/-- `Config.VALID_EVENTS`: the fixed recurrence-interval enumeration. -/
def VALID_EVENTS : List String :=
  ["1", "2", "5", "10", "25", "50", "100", "200", "500", "1000"]

/-- `Config.VALID_DURATIONS`: the fixed duration enumeration. -/
def VALID_DURATIONS : List String :=
  ["05m", "10m", "15m", "30m", "60m", "02h", "03h", "06h", "12h", "24h"]

/-- `Config.MAX_RETRIES`. -/
def MAX_RETRIES : Nat := 3

/-! ## Filename matching

The pipeline matches raster filenames with the anchored regular expression
`^[a-zA-Z]+{event}yr{dur}a[ul]?\.asc$` (zone prefix of one or more ASCII
letters, then the literal event/duration/variant suffix).  Such a match
holds iff the name splits as a nonempty all-letter prefix followed by the
exact suffix; since the split position is forced by the lengths, this is
the check below. -/

/-- Anchored match `^[a-zA-Z]+ suffix $` on a filename: a nonempty
all-letter prefix followed by exactly `suffix`. -/
def anchored_alpha_match (suffix : List Char) (name : List Char) : Bool :=
  decide (suffix.length < name.length) &&
  decide (name.drop (name.length - suffix.length) = suffix) &&
  (name.take (name.length - suffix.length)).all Char.isAlpha

/-- The literal suffix `{event}yr{dur}a{variant}.asc` of a per-zone raster
filename (variant is `""`, `"u"` or `"l"`). -/
def group_suffix (event dur variant : String) : String :=
  event ++ "yr" ++ dur ++ "a" ++ variant ++ ".asc"

/-- The regular-expression filter of `combine_multiple_zones`:
`^[a-zA-Z]+{event}yr{dur}a{variant}\.asc$`. -/
def zone_alpha_match (event dur variant : String) (name : String) : Bool :=
  anchored_alpha_match (group_suffix event dur variant).data name.data

/-- `fnmatch`-style matching of the glob pattern `*` ++ `lit` (as used by
`Path.glob(f"*{event}yr{dur}a{variant}.asc")`): the name ends with the
literal part. -/
def glob_star (lit : String) (name : String) : Bool :=
  decide (lit.data.length ≤ name.data.length) &&
  decide (name.data.drop (name.data.length - lit.data.length) = lit.data)

/-- The pattern check of `mosaic_list_of_rasters`:
`^[a-zA-Z]+{event}yr{dur}a[ul]?\.asc$` (the optional `[ul]?` makes it the
disjunction of the three variants). -/
def mosaic_name_ok (event dur : String) (name : String) : Bool :=
  zone_alpha_match event dur "" name ||
  zone_alpha_match event dur "u" name ||
  zone_alpha_match event dur "l" name

/-- Output filename of one mosaic: `comb{event}yr{dur}a{CI}.asc`. -/
def comb_name (event dur CI : String) : String :=
  "comb" ++ event ++ "yr" ++ dur ++ "a" ++ CI ++ ".asc"

/-! ## `mosaic_list_of_rasters` -/

/-- A source raster as seen by `mosaic_list_of_rasters`: its filename and
its band of cell values. -/
structure NamedBand where
  name : String
  band : Band

/-- `NOAAProcessor.mosaic_list_of_rasters`: validate every filename against
the anchored pattern (raising `ValueError` otherwise), then write
`comb{event}yr{dur}a{CI}.asc` holding `merge(sources, method='max')`. -/
def mosaic_list_of_rasters (raster_list : List NamedBand)
    (event dur CI : String) : Except String (String × Band) :=
  if raster_list.all (fun f => mosaic_name_ok event dur f.name) then
    .ok (comb_name event dur CI, merge_max (raster_list.map NamedBand.band))
  else
    .error "Unexpected file pattern in raster list"

/-! ## `find_noaa_zones` -/

/-- `pandas.Series.unique`: distinct values in order of first occurrence. -/
def pandas_unique (l : List String) : List String :=
  l.foldl (fun acc x => if x ∈ acc then acc else acc ++ [x]) []

/-- `NOAAProcessor.find_noaa_zones`, after both layers are reprojected to
the common CRS: the zone-index layer is a list of (zone code, geometry)
records; `intersects_prj_union` is the spatial-index intersection query
against the unioned project-area geometry.  The distinct codes of the
intersecting records are returned, with the legacy sentinel `"Atlas2"`
filtered out. -/
def find_noaa_zones {G : Type} (zone_index : List (String × G))
    (intersects_prj_union : G → Bool) : List String :=
  (pandas_unique
      ((zone_index.filter (fun z => intersects_prj_union z.2)).map Prod.fst)).filter
    (fun z => decide (z ≠ "Atlas2"))

/-! ## `download_and_unzip_noaa_grid`

The retry loop is modelled as an explicit trace of filesystem/wait events.
One attempt either succeeds (`ok`: archive streamed to disk, extracted,
then unlinked) or fails (`fail writesFile`: `writesFile` records whether
the failure happened after the archive file was opened for writing, i.e.
whether a partial archive is on disk afterwards; a network error before
the response body is opened leaves the filesystem untouched). -/

/-- Outcome of one download/extract attempt. -/
inductive AttemptOutcome
  | ok
  | fail (writesFile : Bool)
deriving DecidableEq

/-- Observable events of the retry loop of `download_and_unzip_noaa_grid`. -/
inductive DLEvent
  | wrote
  | extracted
  | unlinked
  | slept (secs : Nat)
  | deletedPartial
  | raisedErr
  | returned
deriving DecidableEq

/-- The retry loop body: `fuel` is the number of remaining attempts
(`MAX_RETRIES - attempt`); returns the event trace, whether the archive
file exists afterwards, and whether the failure was re-raised.  On a
non-final failed attempt the code only sleeps `2 ** attempt` seconds (the
partial archive, if any, is left on disk); on the final failed attempt it
deletes the archive if present and re-raises. -/
def download_go (outcomes : Nat → AttemptOutcome) :
    Nat → Nat → Bool → List DLEvent × Bool × Bool
  | 0, _, fileExists => ([], fileExists, false)
  | fuel + 1, attempt, fileExists =>
    match outcomes attempt with
    | .ok => ([.wrote, .extracted, .unlinked, .returned], false, false)
    | .fail writes =>
      let fe := fileExists || writes
      if fuel = 0 then
        ((if writes then [DLEvent.wrote] else []) ++
          (if fe then [DLEvent.deletedPartial] else []) ++ [DLEvent.raisedErr],
          false, true)
      else
        let rest := download_go outcomes fuel (attempt + 1) fe
        ((if writes then [DLEvent.wrote] else []) ++
          DLEvent.slept (2 ^ attempt) :: rest.1, rest.2)

/-- `NOAADownloader.download_and_unzip_noaa_grid` for one task: run the
attempts `0, …, maxRetries - 1` starting with no archive file on disk. -/
def download_run (outcomes : Nat → AttemptOutcome) (maxRetries : Nat) :
    List DLEvent × Bool × Bool :=
  download_go outcomes maxRetries 0 false

/-- The delays slept by a trace, in order. -/
def sleeps_of : List DLEvent → List Nat
  | [] => []
  | .slept s :: rest => s :: sleeps_of rest
  | _ :: rest => sleeps_of rest

/-- Does the archive file get deleted before every wait?  Folds the
archive-file state over the trace and checks that the file is absent at
each `slept` event. -/
def file_absent_at_sleeps : List DLEvent → Bool → Bool
  | [], _ => true
  | .wrote :: rest, _ => file_absent_at_sleeps rest true
  | .unlinked :: rest, _ => file_absent_at_sleeps rest false
  | .deletedPartial :: rest, _ => file_absent_at_sleeps rest false
  | .slept _ :: rest, fe => !fe && file_absent_at_sleeps rest fe
  | _ :: rest, fe => file_absent_at_sleeps rest fe

/-! ## `get_noaa_grids` task generation -/

/-- `base_pattern = f"{zone}{event}yr{duration}a"`. -/
def base_pattern (zone event duration : String) : String :=
  zone ++ event ++ "yr" ++ duration ++ "a"

/-- The download tasks `get_noaa_grids` emits for one
zone × event × duration cell: the base-variant archive always, the
upper- and lower-variant archives exactly when the event is `"100"` and
confidence intervals are requested. -/
def task_group (zone event duration : String) (CI_100yr : Bool)
    (folder : String) : List (String × String × String) :=
  (zone, base_pattern zone event duration ++ ".zip", folder) ::
    (if event = "100" ∧ CI_100yr = true then
      [(zone, base_pattern zone event duration ++ "u.zip", folder),
       (zone, base_pattern zone event duration ++ "l.zip", folder)]
    else [])

/-- The full `file_tasks` list built by `get_noaa_grids`. -/
def file_tasks (zone_list event_list dur_list : List String)
    (CI_100yr : Bool) (folder : String) : List (String × String × String) :=
  zone_list.flatMap fun zone =>
    event_list.flatMap fun event =>
      dur_list.flatMap fun duration =>
        task_group zone event duration CI_100yr folder

/-! ## `combine_multiple_zones` -/

/-- One (event, duration, variant) group of `combine_multiple_zones`: the
files of the grids folder passing the glob prefilter
`*{e}yr{d}a{v}.asc` and the anchored regular expression. -/
def select_rasters (files : List String) (event dur variant : String) :
    List String :=
  files.filter fun f =>
    glob_star (group_suffix event dur variant) f &&
      zone_alpha_match event dur variant f

/-- The mosaic task list of `combine_multiple_zones`: for every requested
event × duration, the base group if it has more than one file, and — for
the 100-year event — the `u` and `l` groups likewise. -/
def combine_tasks (files : List String) (event_list dur_list : List String) :
    List (List String × String × String × String) :=
  event_list.flatMap fun e =>
    dur_list.flatMap fun d =>
      (if (select_rasters files e d "").length > 1 then
        [(select_rasters files e d "", e, d, "")]
      else []) ++
      (if e = "100" then
        ["u", "l"].flatMap fun ci =>
          if (select_rasters files e d ci).length > 1 then
            [(select_rasters files e d ci, e, d, ci)]
          else []
      else [])

/-! ## `compute_1pct_plus_and_minus`

Two views of the confidence-interval engine.  The scalar view
(`compute_1pct_scalar`) gives the per-cell arithmetic over the reals:
non-positive cells become missing, values are rescaled from
integer-thousandths, and the 16th/84th-percentile bounds of the fitted
lognormal are derived (`scipy.special.erfinv` is a parameter, since the
claims only use that it is odd and positive at `0.68`).  The shape view
(`compute_1pct_run`) records which raster shapes make the NumPy
element-wise pipeline (and the final `rasterio` write against the base
raster's metadata) succeed: the function performs *no* explicit
shape or transform precondition check — shapes only matter through NumPy
broadcasting, and the affine transforms are never compared at all (the
outputs simply reuse the base raster's metadata). -/

/-- Per-cell arithmetic of `compute_1pct_plus_and_minus`, returning
`(plus, minus)`; `none` is the NaN (masked) case. -/
noncomputable def compute_1pct_scalar (erfinv : ℝ → ℝ)
    (p_100yr p_upper p_lower : ℝ) : Option (ℝ × ℝ) :=
  if p_100yr ≤ 0 ∨ p_upper ≤ 0 ∨ p_lower ≤ 0 then none
  else
    let base := p_100yr / 1000
    let upper := p_upper / 1000
    let lower := p_lower / 1000
    let mu := Real.log base
    let sigma_lower := (mu - Real.log lower) / 1.645
    let sigma_upper := (Real.log upper - mu) / 1.645
    let sigma_max := max sigma_lower sigma_upper
    some (Real.exp (mu + sigma_max * Real.sqrt 2 * erfinv (2 * 0.84 - 1)),
          Real.exp (mu + sigma_max * Real.sqrt 2 * erfinv (2 * 0.16 - 1)))

/-- An affine geotransform (the six coefficients). -/
structure Affine where
  a : ℚ
  b : ℚ
  c : ℚ
  d : ℚ
  e : ℚ
  f : ℚ
deriving DecidableEq

/-- The metadata of a raster file that the shape view of
`compute_1pct_plus_and_minus` can observe: array shape and geotransform. -/
structure RasterMeta where
  shape : Nat × Nat
  transform : Affine
deriving DecidableEq

/-- NumPy broadcasting of one dimension. -/
def bdim (m n : Nat) : Option Nat :=
  if m = n then some m else if m = 1 then some n else if n = 1 then some m
  else none

/-- NumPy broadcasting of two 2-D shapes. -/
def broadcast2 (s t : Nat × Nat) : Option (Nat × Nat) :=
  match bdim s.1 t.1, bdim s.2 t.2 with
  | some r, some c => some (r, c)
  | _, _ => none

/-- Failure modes of one duration's confidence-interval computation. -/
inductive CIErr
  | broadcastError
  | writeShapeMismatch
deriving DecidableEq

/-- Shape/metadata view of `compute_1pct_plus_and_minus`: the element-wise
NumPy chain `sigma_lower = (mu - log lower)/1.645`,
`sigma_upper = (log upper - mu)/1.645`, `sigma_max = maximum(…)`,
`exp(mu + sigma_max * …)` broadcasts the three input shapes; the final
`dest.write` must match the base raster's height/width (`out_meta` is a
copy of the base metadata).  No explicit precondition is checked: in
particular the transforms of the three inputs are never compared, and the
outputs carry the base raster's transform. -/
def compute_1pct_run (base upper lower : RasterMeta) :
    Except CIErr RasterMeta :=
  match broadcast2 base.shape lower.shape with
  | none => .error .broadcastError
  | some s_lower =>
    match broadcast2 upper.shape base.shape with
    | none => .error .broadcastError
    | some s_upper =>
      match broadcast2 s_lower s_upper with
      | none => .error .broadcastError
      | some s_max =>
        match broadcast2 base.shape s_max with
        | none => .error .broadcastError
        | some s_out =>
          if s_out = base.shape then
            .ok { shape := base.shape, transform := base.transform }
          else .error .writeShapeMismatch

/-! ## `process_confidence_intervals` -/

/-- Per-duration outcome of `process_confidence_intervals`: computed,
skipped with the missing-files warning (`StopIteration` caught), or failed
with the error logged (any other exception caught).  No constructor
re-raises: every exception of one duration's body is contained. -/
inductive CIOutcome
  | done (out : RasterMeta)
  | skippedMissing
  | errorLogged (e : CIErr)
deriving DecidableEq

/-- `next(grids_folder.glob('*' + lit))`: the first file of the folder
matching the glob, if any. -/
def first_glob (folder : List String) (lit : String) : Option String :=
  (folder.filter (glob_star lit)).head?

/-- The body of one iteration of `process_confidence_intervals`, with the
surrounding `try/except`: find the base/upper/lower rasters of the
duration by glob, then run the computation; a missing file skips with a
warning, any computation error is logged. -/
def ci_run_one (folder : List String) (metas : String → RasterMeta)
    (dur : String) : CIOutcome :=
  match first_glob folder ("100yr" ++ dur ++ "a.asc"),
      first_glob folder ("100yr" ++ dur ++ "au.asc"),
      first_glob folder ("100yr" ++ dur ++ "al.asc") with
  | some base, some upper, some lower =>
    match compute_1pct_run (metas base) (metas upper) (metas lower) with
    | .ok out => .done out
    | .error e => .errorLogged e
  | _, _, _ => .skippedMissing

/-- `NOAAGrids.process_confidence_intervals`: every requested duration is
processed independently. -/
def process_confidence_intervals (folder : List String)
    (metas : String → RasterMeta) (dur_list : List String) : List CIOutcome :=
  dur_list.map (ci_run_one folder metas)

/-! ## `process_grids` (the orchestrator) -/

/-- The environment `process_grids` interacts with, abstracted: the zone
codes `find_noaa_zones` resolves, the raster filenames present in
`NOAA_grids/` after the fetch stage extracts its archives, and each
file's raster metadata. -/
structure Oracle where
  zones : List String
  fetched : List String
  metas : String → RasterMeta

/-- Validation failures of `process_grids` (the `ValueError`s raised
before anything else runs). -/
inductive PGError
  | invalidEvents
  | invalidDurations
deriving DecidableEq

/-- What a successful `process_grids` run did. -/
structure PGReport where
  tasks : List (String × String × String)
  gridsFolderName : String
  gridsFolderFiles : List String
  ciOutcomes : Option (List CIOutcome)

/-- The filenames `combine_multiple_zones` writes into
`NOAA_grids_mosaic/`. -/
def mosaic_outputs (fetched : List String) (event_list dur_list : List String) :
    List String :=
  (combine_tasks fetched event_list dur_list).map fun t =>
    comb_name t.2.1 t.2.2.1 t.2.2.2

/-- `NOAAGrids.process_grids`: validate the requested events and durations
against the fixed enumerations before any I/O; then fetch (the download
task list), mosaic when more than one zone resolved (pointing the rest of
the pipeline at `NOAA_grids_mosaic/`), and run the confidence-interval
step when the 100-year event is requested with `CI_100yr`. -/
def process_grids (o : Oracle) (event_list dur_list : List String)
    (CI_100yr : Bool) : Except PGError PGReport :=
  if ¬ ∀ e ∈ event_list, e ∈ VALID_EVENTS then .error .invalidEvents
  else if ¬ ∀ d ∈ dur_list, d ∈ VALID_DURATIONS then .error .invalidDurations
  else
    let tasks := file_tasks o.zones event_list dur_list CI_100yr "NOAA_grids"
    let folder : String × List String :=
      if o.zones.length > 1 then
        ("NOAA_grids_mosaic", mosaic_outputs o.fetched event_list dur_list)
      else ("NOAA_grids", o.fetched)
    let ci : Option (List CIOutcome) :=
      if "100" ∈ event_list ∧ CI_100yr = true then
        some (process_confidence_intervals folder.2 o.metas dur_list)
      else none
    .ok ⟨tasks, folder.1, folder.2, ci⟩

/-! ## Theorems -/

theorem omax_none_left (x : Option ℚ) : omax none x = x := rfl

theorem omax_none_right (x : Option ℚ) : omax x none = x := by
  cases x <;> rfl

theorem omax_some_some (a b : ℚ) : omax (some a) (some b) = some (max a b) := rfl

theorem foldl_omax_init (sources : List Band) (p : Pixel) (a : ℚ) :
    sources.foldl (fun acc r => omax acc (r p)) (some a) =
      omax (some a) (sources.foldl (fun acc r => omax acc (r p)) none) := by
  induction sources generalizing a with
  | nil => simp [omax_none_right]
  | cons r rs ih =>
    simp only [List.foldl_cons]
    cases hr : r p with
    | none =>
      rw [omax_none_right, omax_none_right]
      exact ih a
    | some b =>
      rw [omax_some_some, omax_none_left, ih, ih b]
      cases hrest : rs.foldl (fun acc r => omax acc (r p)) none with
      | none => rw [omax_none_right, omax_none_right, omax_some_some]
      | some c => rw [omax_some_some, omax_some_some, omax_some_some, max_assoc]

/-- A cell of the merge is valid iff some source is valid there: the output
covers exactly the union footprint of its inputs. -/
theorem merge_max_none_iff (sources : List Band) (p : Pixel) :
    merge_max sources p = none ↔ ∀ r ∈ sources, r p = none := by
  induction sources with
  | nil => simp [merge_max]
  | cons r rs ih =>
    simp only [merge_max, List.foldl_cons] at *
    cases hr : r p with
    | none =>
      rw [omax_none_right]
      constructor
      · intro h q hq
        rcases List.mem_cons.mp hq with rfl | hq
        · exact hr
        · exact ih.mp h q hq
      · intro h
        exact ih.mpr fun q hq => h q (List.mem_cons_of_mem _ hq)
    | some a =>
      rw [omax_none_left, foldl_omax_init]
      constructor
      · intro h
        cases hrest : rs.foldl (fun acc r => omax acc (r p)) none with
        | none => rw [hrest, omax_none_right] at h; cases h
        | some b => rw [hrest, omax_some_some] at h; cases h
      · intro h
        exact absurd (h r (List.mem_cons_self r rs)) (by simp [hr])

/-- The value of the merge at a valid cell is attained by some source and
dominates every valid source value at that cell. -/
theorem merge_max_some (sources : List Band) (p : Pixel) (v : ℚ)
    (h : merge_max sources p = some v) :
    (∃ r ∈ sources, r p = some v) ∧
      ∀ r ∈ sources, ∀ w, r p = some w → w ≤ v := by
  induction sources generalizing v with
  | nil => simp [merge_max] at h
  | cons r rs ih =>
    simp only [merge_max, List.foldl_cons] at h
    cases hr : r p with
    | none =>
      rw [hr, omax_none_right] at h
      obtain ⟨⟨q, hq, hqv⟩, hdom⟩ := ih v h
      refine ⟨⟨q, List.mem_cons_of_mem _ hq, hqv⟩, ?_⟩
      intro s hs w hw
      rcases List.mem_cons.mp hs with rfl | hs
      · rw [hr] at hw; cases hw
      · exact hdom s hs w hw
    | some a =>
      rw [hr, omax_none_left, foldl_omax_init] at h
      cases hrest : rs.foldl (fun acc r => omax acc (r p)) none with
      | none =>
        rw [hrest, omax_none_right] at h
        obtain rfl : a = v := by injection h
        refine ⟨⟨r, List.mem_cons_self r rs, hr⟩, ?_⟩
        intro s hs w hw
        rcases List.mem_cons.mp hs with rfl | hs
        · rw [hr] at hw; injection hw with hw; exact le_of_eq hw.symm
        · exact absurd ((merge_max_none_iff rs p).mp hrest s hs ▸ hw) (by simp)
      | some b =>
        rw [hrest, omax_some_some] at h
        obtain hab : max a b = v := by injection h
        obtain ⟨⟨q, hq, hqv⟩, hdom⟩ := ih b hrest
        refine ⟨?_, ?_⟩
        · rcases max_cases a b with ⟨hm, _⟩ | ⟨hm, _⟩
          · refine ⟨r, List.mem_cons_self r rs, ?_⟩
            rw [hr]
            exact congrArg some (hm.symm.trans hab)
          · refine ⟨q, List.mem_cons_of_mem _ hq, ?_⟩
            rw [hqv]
            exact congrArg some (hm.symm.trans hab)
        · intro s hs w hw
          rcases List.mem_cons.mp hs with rfl | hs
          · rw [hr] at hw; injection hw with hw
            subst hw; rw [← hab]; exact le_max_left _ _
          · have := hdom s hs w hw
            rw [← hab]; exact le_trans this (le_max_right _ _)

/-- **C1**: For every mosaic group of two or more source rasters passed to
`mosaic_list_of_rasters` (their filenames passing its pattern check), the
written output raster covers the union footprint of all inputs — a cell of
the output `comb{event}yr{dur}a{CI}.asc` is valid iff some input covers
it — and at every cell its value is the maximum over all contributing
source rasters covering that cell, nodata excluded; in particular, with
two rasters A and B, at any cell where A's value is strictly greater than
B's, the output equals A's value (max compositing, not an average or a
last-written value). -/
theorem mosaic_list_of_rasters_max_compositing
    (raster_list : List NamedBand) (event dur CI : String)
    (hlen : 2 ≤ raster_list.length)
    (hok : raster_list.all (fun f => mosaic_name_ok event dur f.name) = true) :
    ∃ out : Band,
      mosaic_list_of_rasters raster_list event dur CI =
        .ok (comb_name event dur CI, out) ∧
      (∀ p, out p = none ↔ ∀ r ∈ raster_list, r.band p = none) ∧
      (∀ p v, out p = some v →
        (∃ r ∈ raster_list, r.band p = some v) ∧
          ∀ r ∈ raster_list, ∀ w, r.band p = some w → w ≤ v) ∧
      (∀ A B p a b, raster_list = [A, B] → A.band p = some a →
        B.band p = some b → b < a → out p = some a) := by
  refine ⟨merge_max (raster_list.map NamedBand.band), ?_, ?_, ?_, ?_⟩
  · simp [mosaic_list_of_rasters, hok]
  · intro p
    rw [merge_max_none_iff]
    constructor
    · intro h r hr
      exact h r.band (List.mem_map_of_mem _ hr)
    · intro h rb hrb
      obtain ⟨r, hr, rfl⟩ := List.mem_map.mp hrb
      exact h r hr
  · intro p v hv
    obtain ⟨⟨rb, hrb, hrbv⟩, hdom⟩ := merge_max_some _ p v hv
    obtain ⟨r, hr, rfl⟩ := List.mem_map.mp hrb
    exact ⟨⟨r, hr, hrbv⟩,
      fun s hs w hw => hdom s.band (List.mem_map_of_mem _ hs) w hw⟩
  · rintro A B p a b rfl hA hB hba
    show omax (omax none (A.band p)) (B.band p) = some a
    rw [hA, hB, omax_none_left, omax_some_some, max_eq_left hba.le]

/-- Witness for C1: a concrete two-raster group (zones `se` and `orb`,
100-year 24-hour) whose bands overlap at the origin with values 7 > 5. -/
theorem mosaic_list_of_rasters_max_compositing_witness :
    2 ≤ ([⟨"se100yr24ha.asc", fun _ => some 7⟩,
          ⟨"orb100yr24ha.asc", fun _ => some 5⟩] : List NamedBand).length ∧
    (([⟨"se100yr24ha.asc", fun _ => some 7⟩,
       ⟨"orb100yr24ha.asc", fun _ => some 5⟩] : List NamedBand).all
        (fun f => mosaic_name_ok "100" "24h" f.name) = true) ∧
    ∃ out : Band,
      mosaic_list_of_rasters
          [⟨"se100yr24ha.asc", fun _ => some 7⟩,
           ⟨"orb100yr24ha.asc", fun _ => some 5⟩] "100" "24h" "" =
        .ok (comb_name "100" "24h" "", out) ∧
      (∀ p, out p = none ↔
        ∀ r ∈ ([⟨"se100yr24ha.asc", fun _ => some 7⟩,
                ⟨"orb100yr24ha.asc", fun _ => some 5⟩] : List NamedBand),
          r.band p = none) ∧
      (∀ p v, out p = some v →
        (∃ r ∈ ([⟨"se100yr24ha.asc", fun _ => some 7⟩,
                 ⟨"orb100yr24ha.asc", fun _ => some 5⟩] : List NamedBand),
            r.band p = some v) ∧
          ∀ r ∈ ([⟨"se100yr24ha.asc", fun _ => some 7⟩,
                  ⟨"orb100yr24ha.asc", fun _ => some 5⟩] : List NamedBand),
            ∀ w, r.band p = some w → w ≤ v) ∧
      (∀ A B p a b,
        ([⟨"se100yr24ha.asc", fun _ => some 7⟩,
          ⟨"orb100yr24ha.asc", fun _ => some 5⟩] : List NamedBand) = [A, B] →
        A.band p = some a → B.band p = some b → b < a → out p = some a) :=
  ⟨by decide, by decide,
    mosaic_list_of_rasters_max_compositing
      [⟨"se100yr24ha.asc", fun _ => some 7⟩,
       ⟨"orb100yr24ha.asc", fun _ => some 5⟩] "100" "24h" ""
      (by decide) (by decide)⟩

theorem pandas_unique_nodup (l : List String) : (pandas_unique l).Nodup := by
  suffices h : ∀ acc : List String, acc.Nodup →
      (l.foldl (fun acc x => if x ∈ acc then acc else acc ++ [x]) acc).Nodup by
    exact h [] List.nodup_nil
  induction l with
  | nil => intro acc hacc; exact hacc
  | cons x xs ih =>
    intro acc hacc
    simp only [List.foldl_cons]
    by_cases hx : x ∈ acc
    · rw [if_pos hx]; exact ih acc hacc
    · rw [if_neg hx]
      refine ih _ ?_
      rw [List.nodup_append]
      refine ⟨hacc, List.nodup_singleton x, ?_⟩
      intro a ha hax
      rw [List.mem_singleton] at hax
      exact hx (hax ▸ ha)

/-- **C8**: For every zone-index input and project-area intersection
predicate, the zone list returned by `find_noaa_zones` contains only
distinct zone codes and never contains the reserved legacy sentinel code
`"Atlas2"`, even when that zone's record intersects the unioned project
area. -/
theorem find_noaa_zones_nodup_no_sentinel {G : Type}
    (zone_index : List (String × G)) (intersects_prj_union : G → Bool) :
    (find_noaa_zones zone_index intersects_prj_union).Nodup ∧
      "Atlas2" ∉ find_noaa_zones zone_index intersects_prj_union := by
  constructor
  · exact (pandas_unique_nodup _).filter _
  · intro hmem
    have := (List.mem_filter.mp hmem).2
    simp at this

/-- **C4** counterexample: with `MAX_RETRIES = 3` and every attempt failing
after partially writing the archive, the trace of
`download_and_unzip_noaa_grid` is: write, sleep 1 s, write, sleep 2 s,
write, delete, raise.  The first two failed attempts wait *without*
deleting the partially written archive (the file is on disk at both
`slept` events), refuting the claim that every failed attempt deletes the
partial archive and then waits. -/
theorem download_no_delete_before_intermediate_sleeps :
    (download_run (fun _ => .fail true) MAX_RETRIES).1 =
      [.wrote, .slept 1, .wrote, .slept 2, .wrote, .deletedPartial,
        .raisedErr] ∧
    file_absent_at_sleeps
        (download_run (fun _ => .fail true) MAX_RETRIES).1 false = false := by
  decide

/-- **C4** (amended): In `download_and_unzip_noaa_grid`, a *non-final*
failed attempt leaves any partially written archive in place (it is
truncated and overwritten by the next attempt) and waits `2 ** attempt`
seconds — 1 s then 2 s, an exponentially increasing, doubling delay; only
the *final* failed attempt deletes the partial archive.  After a task
fails on every one of the `MAX_RETRIES` attempts, no archive file remains
and the failure is raised to the caller; the archive file is deleted at
the end exactly when some attempt partially wrote it. -/
theorem download_retry_exhaustion_behaviour (w0 w1 w2 : Bool) :
    sleeps_of (download_run
        (fun i => if i = 0 then .fail w0 else if i = 1 then .fail w1
          else .fail w2) MAX_RETRIES).1 = [1, 2] ∧
    (download_run
        (fun i => if i = 0 then .fail w0 else if i = 1 then .fail w1
          else .fail w2) MAX_RETRIES).2.1 = false ∧
    (download_run
        (fun i => if i = 0 then .fail w0 else if i = 1 then .fail w1
          else .fail w2) MAX_RETRIES).2.2 = true ∧
    (DLEvent.deletedPartial ∈ (download_run
        (fun i => if i = 0 then .fail w0 else if i = 1 then .fail w1
          else .fail w2) MAX_RETRIES).1 ↔ (w0 || w1 || w2) = true) := by
  cases w0 <;> cases w1 <;> cases w2 <;> decide

/-- **C2**: At every cell where the three input rasters satisfy
`0 < lower < base < upper` (values in integer-thousandths, rescaled by
1000 inside the computation), `compute_1pct_plus_and_minus` produces
`(plus, minus)` with `minus < base < plus`, symmetric in log-space around
`ln base`: `ln plus - ln base = ln base - ln minus
= sigma * sqrt 2 * erfinv 0.68` where
`sigma = max ((ln base - ln lower)/1.645) ((ln upper - ln base)/1.645)`
(`base`, `upper`, `lower` denote the rescaled values).  `erfinv` is
abstract; only its oddness at 0.68 (`erfinv (2·0.16-1) = -erfinv (2·0.84-1)`)
and its positivity at 0.68 are used. -/
theorem compute_1pct_scalar_lognormal_bounds (erfinv : ℝ → ℝ)
    (p_100yr p_upper p_lower : ℝ)
    (hl : 0 < p_lower) (hlb : p_lower < p_100yr) (hbu : p_100yr < p_upper)
    (herf_odd : erfinv (2 * 0.16 - 1) = -erfinv (2 * 0.84 - 1))
    (herf_pos : 0 < erfinv (2 * 0.84 - 1)) :
    ∃ plus minus : ℝ,
      compute_1pct_scalar erfinv p_100yr p_upper p_lower =
        some (plus, minus) ∧
      minus < p_100yr / 1000 ∧ p_100yr / 1000 < plus ∧
      Real.log plus - Real.log (p_100yr / 1000) =
        max ((Real.log (p_100yr / 1000) - Real.log (p_lower / 1000)) / 1.645)
            ((Real.log (p_upper / 1000) - Real.log (p_100yr / 1000)) / 1.645) *
          Real.sqrt 2 * erfinv 0.68 ∧
      Real.log (p_100yr / 1000) - Real.log minus =
        max ((Real.log (p_100yr / 1000) - Real.log (p_lower / 1000)) / 1.645)
            ((Real.log (p_upper / 1000) - Real.log (p_100yr / 1000)) / 1.645) *
          Real.sqrt 2 * erfinv 0.68 := by
  have hb : 0 < p_100yr := hl.trans hlb
  have hu : 0 < p_upper := hb.trans hbu
  have hbase : (0 : ℝ) < p_100yr / 1000 := by positivity
  have hcond : ¬ (p_100yr ≤ 0 ∨ p_upper ≤ 0 ∨ p_lower ≤ 0) := by
    push_neg
    exact ⟨hb, hu, hl⟩
  have h068 : (2 * 0.84 - 1 : ℝ) = 0.68 := by norm_num
  set c := erfinv (2 * 0.84 - 1) with hc
  set mu := Real.log (p_100yr / 1000) with hmu
  set sigma : ℝ :=
    max ((mu - Real.log (p_lower / 1000)) / 1.645)
        ((Real.log (p_upper / 1000) - mu) / 1.645) with hsigma
  have hsigma_pos : 0 < sigma := by
    have hlt : p_100yr / 1000 < p_upper / 1000 := by linarith
    have hlog : mu < Real.log (p_upper / 1000) := Real.log_lt_log hbase hlt
    have : 0 < (Real.log (p_upper / 1000) - mu) / 1.645 := by
      apply div_pos (by linarith) (by norm_num)
    exact lt_of_lt_of_le this (le_max_right _ _)
  have hsqrt2 : (0 : ℝ) < Real.sqrt 2 := Real.sqrt_pos.mpr (by norm_num)
  have hfac : 0 < sigma * Real.sqrt 2 * c :=
    mul_pos (mul_pos hsigma_pos hsqrt2) herf_pos
  have heq : compute_1pct_scalar erfinv p_100yr p_upper p_lower =
      some (Real.exp (mu + sigma * Real.sqrt 2 * c),
            Real.exp (mu + sigma * Real.sqrt 2 * erfinv (2 * 0.16 - 1))) := by
    simp only [compute_1pct_scalar]
    rw [if_neg hcond]
  refine ⟨Real.exp (mu + sigma * Real.sqrt 2 * c),
          Real.exp (mu + sigma * Real.sqrt 2 * erfinv (2 * 0.16 - 1)),
          heq, ?_, ?_, ?_, ?_⟩
  · rw [herf_odd]
    calc Real.exp (mu + sigma * Real.sqrt 2 * -c)
        < Real.exp mu := Real.exp_lt_exp.mpr (by nlinarith)
      _ = p_100yr / 1000 := Real.exp_log hbase
  · calc p_100yr / 1000 = Real.exp mu := (Real.exp_log hbase).symm
      _ < Real.exp (mu + sigma * Real.sqrt 2 * c) :=
          Real.exp_lt_exp.mpr (by nlinarith)
  · rw [Real.log_exp, ← h068, hc]
    ring
  · rw [herf_odd, Real.log_exp, ← h068, hc]
    ring

/-- Witness for C2: the spec's symmetric 90 % band `base = 1000`,
`lower = 700`, `upper = 1300` (thousandths-units), with the identity
standing in for `erfinv` (it is odd and positive at 0.68). -/
theorem compute_1pct_scalar_lognormal_bounds_witness :
    (0 : ℝ) < 700 ∧ (700 : ℝ) < 1000 ∧ (1000 : ℝ) < 1300 ∧
    (fun x : ℝ => x) (2 * 0.16 - 1) = -(fun x : ℝ => x) (2 * 0.84 - 1) ∧
    (0 : ℝ) < (fun x : ℝ => x) (2 * 0.84 - 1) ∧
    ∃ plus minus : ℝ,
      compute_1pct_scalar (fun x : ℝ => x) 1000 1300 700 =
        some (plus, minus) ∧
      minus < (1000 : ℝ) / 1000 ∧ (1000 : ℝ) / 1000 < plus ∧
      Real.log plus - Real.log ((1000 : ℝ) / 1000) =
        max ((Real.log ((1000 : ℝ) / 1000) - Real.log ((700 : ℝ) / 1000)) / 1.645)
            ((Real.log ((1300 : ℝ) / 1000) - Real.log ((1000 : ℝ) / 1000)) / 1.645) *
          Real.sqrt 2 * (fun x : ℝ => x) 0.68 ∧
      Real.log ((1000 : ℝ) / 1000) - Real.log minus =
        max ((Real.log ((1000 : ℝ) / 1000) - Real.log ((700 : ℝ) / 1000)) / 1.645)
            ((Real.log ((1300 : ℝ) / 1000) - Real.log ((1000 : ℝ) / 1000)) / 1.645) *
          Real.sqrt 2 * (fun x : ℝ => x) 0.68 :=
  ⟨by norm_num, by norm_num, by norm_num, by norm_num, by norm_num,
    compute_1pct_scalar_lognormal_bounds (fun x : ℝ => x) 1000 1300 700
      (by norm_num) (by norm_num) (by norm_num) (by norm_num) (by norm_num)⟩

theorem broadcast2_self (s : Nat × Nat) : broadcast2 s s = some s := by
  simp [broadcast2, bdim]

/-- **C3** counterexample: `compute_1pct_plus_and_minus` succeeds on three
inputs of identical shape whose affine transforms *differ* — the
transforms are never compared, the outputs simply reuse the base raster's
metadata.  So the function does not enforce, before computation, that the
three inputs have identical shape *and transform*. -/
theorem compute_1pct_run_ignores_transform_mismatch :
    compute_1pct_run
        ⟨(100, 200), ⟨1, 0, 0, 0, 1, 0⟩⟩
        ⟨(100, 200), ⟨2, 0, 5, 0, 2, 5⟩⟩
        ⟨(100, 200), ⟨3, 0, 7, 0, 3, 7⟩⟩ =
      .ok ⟨(100, 200), ⟨1, 0, 0, 0, 1, 0⟩⟩ ∧
    (⟨1, 0, 0, 0, 1, 0⟩ : Affine) ≠ ⟨2, 0, 5, 0, 2, 5⟩ :=
  ⟨rfl, by decide⟩

/-- **C3** (amended): `compute_1pct_plus_and_minus` performs no explicit
shape/transform precondition check.  Equal-shaped inputs always compute,
whatever their transforms (a transform mismatch is undetected); inputs
whose shapes do not broadcast fail that one duration's computation, and
`process_confidence_intervals` contains that failure to the one duration —
its outcome is `errorLogged` while every sibling duration is still
processed. -/
theorem compute_1pct_run_no_precondition_check :
    (∀ base upper lower : RasterMeta,
      upper.shape = base.shape → lower.shape = base.shape →
      compute_1pct_run base upper lower =
        .ok ⟨base.shape, base.transform⟩) ∧
    (∀ base upper lower : RasterMeta,
      broadcast2 base.shape lower.shape = none →
      compute_1pct_run base upper lower = .error .broadcastError) ∧
    (∀ (folder : List String) (metas : String → RasterMeta)
        (l1 l2 : List String) (dur : String) (e : CIErr),
      ci_run_one folder metas dur = .errorLogged e →
      process_confidence_intervals folder metas (l1 ++ dur :: l2) =
        process_confidence_intervals folder metas l1 ++
          .errorLogged e :: process_confidence_intervals folder metas l2) := by
  refine ⟨?_, ?_, ?_⟩
  · intro base upper lower hu hl
    simp [compute_1pct_run, hu, hl, broadcast2_self]
  · intro base upper lower h
    simp [compute_1pct_run, h]
  · intro folder metas l1 l2 dur e h
    simp [process_confidence_intervals, h]

/-- Witness for the amended C3: concrete equal-shape inputs with three
different transforms compute successfully; a (2,3)-shaped base against a
(4,5)-shaped lower raster fails with a broadcast error; the failing
duration's outcome is contained while the sibling duration is processed. -/
theorem compute_1pct_run_no_precondition_check_witness :
    ((⟨(100, 200), ⟨2, 0, 5, 0, 2, 5⟩⟩ : RasterMeta).shape =
        (⟨(100, 200), ⟨1, 0, 0, 0, 1, 0⟩⟩ : RasterMeta).shape) ∧
    compute_1pct_run
        ⟨(100, 200), ⟨1, 0, 0, 0, 1, 0⟩⟩
        ⟨(100, 200), ⟨2, 0, 5, 0, 2, 5⟩⟩
        ⟨(100, 200), ⟨3, 0, 7, 0, 3, 7⟩⟩ =
      .ok ⟨(100, 200), ⟨1, 0, 0, 0, 1, 0⟩⟩ ∧
    broadcast2 (2, 3) (4, 5) = none ∧
    compute_1pct_run
        ⟨(2, 3), ⟨1, 0, 0, 0, 1, 0⟩⟩
        ⟨(2, 3), ⟨1, 0, 0, 0, 1, 0⟩⟩
        ⟨(4, 5), ⟨1, 0, 0, 0, 1, 0⟩⟩ = .error .broadcastError :=
  ⟨rfl,
    compute_1pct_run_no_precondition_check.1
      ⟨(100, 200), ⟨1, 0, 0, 0, 1, 0⟩⟩
      ⟨(100, 200), ⟨2, 0, 5, 0, 2, 5⟩⟩
      ⟨(100, 200), ⟨3, 0, 7, 0, 3, 7⟩⟩ rfl rfl,
    by decide,
    compute_1pct_run_no_precondition_check.2.1
      ⟨(2, 3), ⟨1, 0, 0, 0, 1, 0⟩⟩
      ⟨(2, 3), ⟨1, 0, 0, 0, 1, 0⟩⟩
      ⟨(4, 5), ⟨1, 0, 0, 0, 1, 0⟩⟩ (by decide)⟩

/-- **C9**: In `process_confidence_intervals`, every duration for which
any of the three role files (base `*100yr{dur}a.asc`, upper
`*100yr{dur}au.asc`, lower `*100yr{dur}al.asc`) is absent from the grids
folder is skipped with the missing-files warning, and no exception
propagates to the caller: every duration yields an outcome (`done`,
`skippedMissing`, or `errorLogged`), the whole duration list is covered,
and each duration's outcome is independent of its siblings — any error in
one duration's computation is contained to that duration. -/
theorem process_confidence_intervals_per_duration
    (folder : List String) (metas : String → RasterMeta)
    (dur_list : List String) :
    (process_confidence_intervals folder metas dur_list).length =
      dur_list.length ∧
    (∀ l1 l2 dur, dur_list = l1 ++ dur :: l2 →
      process_confidence_intervals folder metas dur_list =
        process_confidence_intervals folder metas l1 ++
          ci_run_one folder metas dur ::
            process_confidence_intervals folder metas l2) ∧
    (∀ dur, (first_glob folder ("100yr" ++ dur ++ "a.asc") = none ∨
             first_glob folder ("100yr" ++ dur ++ "au.asc") = none ∨
             first_glob folder ("100yr" ++ dur ++ "al.asc") = none) →
      ci_run_one folder metas dur = .skippedMissing) ∧
    (∀ dur, ci_run_one folder metas dur = .skippedMissing ∨
      (∃ out, ci_run_one folder metas dur = .done out) ∨
      (∃ e, ci_run_one folder metas dur = .errorLogged e)) := by
  refine ⟨by simp [process_confidence_intervals], ?_, ?_, ?_⟩
  · rintro l1 l2 dur rfl
    simp [process_confidence_intervals]
  · intro dur h
    rcases h with h | h | h
    · cases hu : first_glob folder ("100yr" ++ dur ++ "au.asc") <;>
        cases hl2 : first_glob folder ("100yr" ++ dur ++ "al.asc") <;>
        simp [ci_run_one, h, hu, hl2]
    · cases hb : first_glob folder ("100yr" ++ dur ++ "a.asc") <;>
        cases hl2 : first_glob folder ("100yr" ++ dur ++ "al.asc") <;>
        simp [ci_run_one, h, hb, hl2]
    · cases hb : first_glob folder ("100yr" ++ dur ++ "a.asc") <;>
        cases hu : first_glob folder ("100yr" ++ dur ++ "au.asc") <;>
        simp [ci_run_one, h, hb, hu]
  · intro dur
    cases hb : first_glob folder ("100yr" ++ dur ++ "a.asc") <;>
      cases hu : first_glob folder ("100yr" ++ dur ++ "au.asc") <;>
      cases hl2 : first_glob folder ("100yr" ++ dur ++ "al.asc") <;>
      simp [ci_run_one, hb, hu, hl2]
    cases hc : compute_1pct_run _ _ _ <;> simp [hc]

/-- Witness for C9: an empty grids folder is missing all three role files
for duration `24h`, so that duration is skipped with the warning. -/
theorem process_confidence_intervals_per_duration_witness :
    first_glob [] ("100yr" ++ "24h" ++ "a.asc") = none ∧
    ci_run_one [] (fun _ => ⟨(1, 1), ⟨1, 0, 0, 0, 1, 0⟩⟩) "24h" =
      .skippedMissing :=
  ⟨rfl,
    (process_confidence_intervals_per_duration []
        (fun _ => ⟨(1, 1), ⟨1, 0, 0, 0, 1, 0⟩⟩) ["24h"]).2.2.1 "24h"
      (Or.inl rfl)⟩

theorem count_flatMap_eq_zero {α β : Type} [BEq β] [LawfulBEq β]
    (l : List α) (f : α → List β) (a : β) (h : ∀ x ∈ l, a ∉ f x) :
    (l.flatMap f).count a = 0 := by
  rw [List.count_eq_zero]
  intro hmem
  obtain ⟨x, hx, hax⟩ := List.mem_flatMap.mp hmem
  exact h x hx hax

theorem count_flatMap_eq_one {α β : Type} [BEq β] [LawfulBEq β]
    (l : List α) (f : α → List β) (a : β) (x : α)
    (hnd : l.Nodup) (hx : x ∈ l) (hone : (f x).count a = 1)
    (hzero : ∀ y ∈ l, y ≠ x → a ∉ f y) : (l.flatMap f).count a = 1 := by
  induction l with
  | nil => cases hx
  | cons y ys ih =>
    rw [List.flatMap_cons, List.count_append]
    obtain ⟨hy_not, hys⟩ := List.nodup_cons.mp hnd
    rcases List.mem_cons.mp hx with rfl | hx'
    · have h0 : (ys.flatMap f).count a = 0 :=
        count_flatMap_eq_zero ys f a fun z hz =>
          hzero z (List.mem_cons_of_mem _ hz) fun he => hy_not (he ▸ hz)
      omega
    · have hy0 : (f y).count a = 0 := by
        rw [List.count_eq_zero]
        exact hzero y (List.mem_cons_self _ _) fun he => hy_not (he ▸ hx')
      have := ih hys hx' fun z hz hzx =>
        hzero z (List.mem_cons_of_mem _ hz) hzx
      omega

theorem mem_task_group {z e d : String} {CI : Bool} {folder : String}
    {t : String × String × String} :
    t ∈ task_group z e d CI folder ↔
      t = (z, base_pattern z e d ++ ".zip", folder) ∨
        ((e = "100" ∧ CI = true) ∧
          (t = (z, base_pattern z e d ++ "u.zip", folder) ∨
           t = (z, base_pattern z e d ++ "l.zip", folder))) := by
  by_cases hcond : e = "100" ∧ CI = true <;> simp [task_group, hcond]

/-- **C5**: For every resolved zone, requested event and requested
duration (the three request lists being duplicate-free and the archive
naming scheme collision-free on them), `get_noaa_grids` emits exactly one
base-variant task `{zone}{event}yr{duration}a.zip`, emits exactly one
upper-variant (`…au.zip`) and one lower-variant (`…al.zip`) task for that
zone/duration if and only if the event equals `"100"` and confidence
intervals are requested, and generates no other tasks. -/
theorem file_tasks_exactly_one_per_variant
    (zone_list event_list dur_list : List String) (CI_100yr : Bool)
    (folder zone event duration : String)
    (hz : zone_list.Nodup) (he : event_list.Nodup) (hd : dur_list.Nodup)
    (hzm : zone ∈ zone_list) (hem : event ∈ event_list)
    (hdm : duration ∈ dur_list)
    (hinj : ∀ z' ∈ zone_list, ∀ e' ∈ event_list, ∀ d' ∈ dur_list,
      ∀ v ∈ [".zip", "u.zip", "l.zip"], ∀ v' ∈ [".zip", "u.zip", "l.zip"],
      base_pattern z' e' d' ++ v = base_pattern zone event duration ++ v' →
      z' = zone ∧ e' = event ∧ d' = duration ∧ v = v') :
    (file_tasks zone_list event_list dur_list CI_100yr folder).count
        (zone, base_pattern zone event duration ++ ".zip", folder) = 1 ∧
    (file_tasks zone_list event_list dur_list CI_100yr folder).count
        (zone, base_pattern zone event duration ++ "u.zip", folder) =
      (if event = "100" ∧ CI_100yr = true then 1 else 0) ∧
    (file_tasks zone_list event_list dur_list CI_100yr folder).count
        (zone, base_pattern zone event duration ++ "l.zip", folder) =
      (if event = "100" ∧ CI_100yr = true then 1 else 0) ∧
    (∀ t ∈ file_tasks zone_list event_list dur_list CI_100yr folder,
      ∃ z ∈ zone_list, ∃ e ∈ event_list, ∃ d ∈ dur_list,
        t = (z, base_pattern z e d ++ ".zip", folder) ∨
          ((e = "100" ∧ CI_100yr = true) ∧
            (t = (z, base_pattern z e d ++ "u.zip", folder) ∨
             t = (z, base_pattern z e d ++ "l.zip", folder)))) := by
  have hsuffix : ∀ v ∈ [".zip", "u.zip", "l.zip"],
      ∀ v' ∈ [".zip", "u.zip", "l.zip"],
      base_pattern zone event duration ++ v =
        base_pattern zone event duration ++ v' → v = v' :=
    fun v hv v' hv' h =>
      (hinj zone hzm event hem duration hdm v hv v' hv' h).2.2.2
  have hbu : base_pattern zone event duration ++ ".zip" ≠
      base_pattern zone event duration ++ "u.zip" := fun h =>
    absurd (hsuffix _ (by simp) _ (by simp) h) (by decide)
  have hbl : base_pattern zone event duration ++ ".zip" ≠
      base_pattern zone event duration ++ "l.zip" := fun h =>
    absurd (hsuffix _ (by simp) _ (by simp) h) (by decide)
  have hul : base_pattern zone event duration ++ "u.zip" ≠
      base_pattern zone event duration ++ "l.zip" := fun h =>
    absurd (hsuffix _ (by simp) _ (by simp) h) (by decide)
  -- a task with one of the three target filenames can only come from the
  -- target zone/event/duration cell, with the variant it was built with
  have hnotin : ∀ v ∈ [".zip", "u.zip", "l.zip"], ∀ z' ∈ zone_list,
      ∀ e' ∈ event_list, ∀ d' ∈ dur_list,
      (zone, base_pattern zone event duration ++ v, folder) ∈
        task_group z' e' d' CI_100yr folder →
      z' = zone ∧ e' = event ∧ d' = duration ∧
        (v = ".zip" ∨
          (event = "100" ∧ CI_100yr = true ∧ (v = "u.zip" ∨ v = "l.zip"))) := by
    intro v hv z' hz' e' he' d' hd' hmem
    rcases mem_task_group.mp hmem with heq | ⟨hcnd, heq | heq⟩
    · have h2 := congrArg (fun p : String × String × String => p.2.1) heq
      have h3 := hinj z' hz' e' he' d' hd' ".zip" (by simp) v hv h2.symm
      exact ⟨h3.1, h3.2.1, h3.2.2.1, Or.inl h3.2.2.2.symm⟩
    · have h2 := congrArg (fun p : String × String × String => p.2.1) heq
      have h3 := hinj z' hz' e' he' d' hd' "u.zip" (by simp) v hv h2.symm
      exact ⟨h3.1, h3.2.1, h3.2.2.1,
        Or.inr ⟨h3.2.1 ▸ hcnd.1, hcnd.2, Or.inl h3.2.2.2.symm⟩⟩
    · have h2 := congrArg (fun p : String × String × String => p.2.1) heq
      have h3 := hinj z' hz' e' he' d' hd' "l.zip" (by simp) v hv h2.symm
      exact ⟨h3.1, h3.2.1, h3.2.2.1,
        Or.inr ⟨h3.2.1 ▸ hcnd.1, hcnd.2, Or.inr h3.2.2.2.symm⟩⟩
  have hgcount_base : (task_group zone event duration CI_100yr folder).count
      (zone, base_pattern zone event duration ++ ".zip", folder) = 1 := by
    by_cases hcond : event = "100" ∧ CI_100yr = true
    · obtain ⟨he1, hc1⟩ := hcond
      subst he1
      subst hc1
      simp [task_group, List.count_cons, Prod.mk.injEq, hbu, hbl]
    · simp [task_group, hcond, List.count_cons]
  have hgcount_u : (task_group zone event duration CI_100yr folder).count
      (zone, base_pattern zone event duration ++ "u.zip", folder) =
      (if event = "100" ∧ CI_100yr = true then 1 else 0) := by
    by_cases hcond : event = "100" ∧ CI_100yr = true
    · obtain ⟨he1, hc1⟩ := hcond
      subst he1
      subst hc1
      simp [task_group, List.count_cons, Prod.mk.injEq, Ne.symm hbu, hul]
    · simp [task_group, hcond, List.count_cons, Prod.mk.injEq, Ne.symm hbu]
  have hgcount_l : (task_group zone event duration CI_100yr folder).count
      (zone, base_pattern zone event duration ++ "l.zip", folder) =
      (if event = "100" ∧ CI_100yr = true then 1 else 0) := by
    by_cases hcond : event = "100" ∧ CI_100yr = true
    · obtain ⟨he1, hc1⟩ := hcond
      subst he1
      subst hc1
      simp [task_group, List.count_cons, Prod.mk.injEq, Ne.symm hbl,
        Ne.symm hul]
    · simp [task_group, hcond, List.count_cons, Prod.mk.injEq, Ne.symm hbl]
  refine ⟨?_, ?_, ?_, ?_⟩
  · simp only [file_tasks]
    apply count_flatMap_eq_one _ _ _ zone hz hzm
    · apply count_flatMap_eq_one _ _ _ event he hem
      · apply count_flatMap_eq_one _ _ _ duration hd hdm
        · exact hgcount_base
        · intro d' hd' hne hmem
          exact hne (hnotin ".zip" (by simp) zone hzm event hem d' hd' hmem).2.2.1
      · intro e' he' hne hmem
        obtain ⟨d', hd', hmem'⟩ := List.mem_flatMap.mp hmem
        exact hne (hnotin ".zip" (by simp) zone hzm e' he' d' hd' hmem').2.1
    · intro y hy hne hmem
      obtain ⟨e', he', hmem'⟩ := List.mem_flatMap.mp hmem
      obtain ⟨d', hd', hmem''⟩ := List.mem_flatMap.mp hmem'
      exact hne (hnotin ".zip" (by simp) y hy e' he' d' hd' hmem'').1
  · by_cases hcond : event = "100" ∧ CI_100yr = true
    · rw [if_pos hcond]
      simp only [file_tasks]
      apply count_flatMap_eq_one _ _ _ zone hz hzm
      · apply count_flatMap_eq_one _ _ _ event he hem
        · apply count_flatMap_eq_one _ _ _ duration hd hdm
          · exact hgcount_u.trans (if_pos hcond)
          · intro d' hd' hne hmem
            exact hne
              (hnotin "u.zip" (by simp) zone hzm event hem d' hd' hmem).2.2.1
        · intro e' he' hne hmem
          obtain ⟨d', hd', hmem'⟩ := List.mem_flatMap.mp hmem
          exact hne (hnotin "u.zip" (by simp) zone hzm e' he' d' hd' hmem').2.1
      · intro y hy hne hmem
        obtain ⟨e', he', hmem'⟩ := List.mem_flatMap.mp hmem
        obtain ⟨d', hd', hmem''⟩ := List.mem_flatMap.mp hmem'
        exact hne (hnotin "u.zip" (by simp) y hy e' he' d' hd' hmem'').1
    · rw [if_neg hcond]
      simp only [file_tasks]
      apply count_flatMap_eq_zero
      intro z' hz' hmem
      obtain ⟨e', he', hmem'⟩ := List.mem_flatMap.mp hmem
      obtain ⟨d', hd', hmem''⟩ := List.mem_flatMap.mp hmem'
      rcases (hnotin "u.zip" (by simp) z' hz' e' he' d' hd' hmem'').2.2.2 with
        hv | ⟨h1, h2, -⟩
      · exact absurd hv (by decide)
      · exact hcond ⟨h1, h2⟩
  · by_cases hcond : event = "100" ∧ CI_100yr = true
    · rw [if_pos hcond]
      simp only [file_tasks]
      apply count_flatMap_eq_one _ _ _ zone hz hzm
      · apply count_flatMap_eq_one _ _ _ event he hem
        · apply count_flatMap_eq_one _ _ _ duration hd hdm
          · exact hgcount_l.trans (if_pos hcond)
          · intro d' hd' hne hmem
            exact hne
              (hnotin "l.zip" (by simp) zone hzm event hem d' hd' hmem).2.2.1
        · intro e' he' hne hmem
          obtain ⟨d', hd', hmem'⟩ := List.mem_flatMap.mp hmem
          exact hne (hnotin "l.zip" (by simp) zone hzm e' he' d' hd' hmem').2.1
      · intro y hy hne hmem
        obtain ⟨e', he', hmem'⟩ := List.mem_flatMap.mp hmem
        obtain ⟨d', hd', hmem''⟩ := List.mem_flatMap.mp hmem'
        exact hne (hnotin "l.zip" (by simp) y hy e' he' d' hd' hmem'').1
    · rw [if_neg hcond]
      simp only [file_tasks]
      apply count_flatMap_eq_zero
      intro z' hz' hmem
      obtain ⟨e', he', hmem'⟩ := List.mem_flatMap.mp hmem
      obtain ⟨d', hd', hmem''⟩ := List.mem_flatMap.mp hmem'
      rcases (hnotin "l.zip" (by simp) z' hz' e' he' d' hd' hmem'').2.2.2 with
        hv | ⟨h1, h2, -⟩
      · exact absurd hv (by decide)
      · exact hcond ⟨h1, h2⟩
  · intro t ht
    simp only [file_tasks] at ht
    obtain ⟨z, hzmem, ht⟩ := List.mem_flatMap.mp ht
    obtain ⟨e, hemem, ht⟩ := List.mem_flatMap.mp ht
    obtain ⟨d, hdmem, ht⟩ := List.mem_flatMap.mp ht
    exact ⟨z, hzmem, e, hemem, d, hdmem, mem_task_group.mp ht⟩

/-- Witness for C5: zones `se`, `orb`, events `100` and `2`, duration
`24h`, confidence intervals on; the base task for `(se, 100, 24h)` occurs
exactly once and its upper/lower tasks exactly once each. -/
theorem file_tasks_exactly_one_per_variant_witness :
    (["se", "orb"] : List String).Nodup ∧
    (["100", "2"] : List String).Nodup ∧
    (["24h"] : List String).Nodup ∧
    "se" ∈ (["se", "orb"] : List String) ∧
    "100" ∈ (["100", "2"] : List String) ∧
    "24h" ∈ (["24h"] : List String) ∧
    (file_tasks ["se", "orb"] ["100", "2"] ["24h"] true "NOAA_grids").count
        ("se", base_pattern "se" "100" "24h" ++ ".zip", "NOAA_grids") = 1 ∧
    (file_tasks ["se", "orb"] ["100", "2"] ["24h"] true "NOAA_grids").count
        ("se", base_pattern "se" "100" "24h" ++ "u.zip", "NOAA_grids") =
      (if ("100" : String) = "100" ∧ true = true then 1 else 0) ∧
    (file_tasks ["se", "orb"] ["100", "2"] ["24h"] true "NOAA_grids").count
        ("se", base_pattern "se" "100" "24h" ++ "l.zip", "NOAA_grids") =
      (if ("100" : String) = "100" ∧ true = true then 1 else 0) := by
  have h := file_tasks_exactly_one_per_variant ["se", "orb"] ["100", "2"]
    ["24h"] true "NOAA_grids" "se" "100" "24h"
    (by decide) (by decide) (by decide) (by decide) (by decide) (by decide)
    (by decide)
  exact ⟨by decide, by decide, by decide, by decide, by decide, by decide,
    h.1, h.2.1, h.2.2.1⟩

theorem anchored_alpha_match_iff (suffix name : List Char) :
    anchored_alpha_match suffix name = true ↔
      ∃ p : List Char, p ≠ [] ∧ (∀ c ∈ p, c.isAlpha = true) ∧
        name = p ++ suffix := by
  simp only [anchored_alpha_match, Bool.and_eq_true, decide_eq_true_eq,
    List.all_eq_true]
  constructor
  · rintro ⟨⟨hlen, hdrop⟩, halpha⟩
    refine ⟨name.take (name.length - suffix.length), ?_, halpha, ?_⟩
    · have hlt : (name.take (name.length - suffix.length)).length =
          name.length - suffix.length := by
        rw [List.length_take]
        omega
      intro hnil
      rw [hnil] at hlt
      simp at hlt
      omega
    · conv_lhs =>
        rw [← List.take_append_drop (name.length - suffix.length) name]
      rw [hdrop]
  · rintro ⟨p, hp, halpha, rfl⟩
    have hplen : 0 < p.length := List.length_pos.mpr hp
    have hlen : (p ++ suffix).length = p.length + suffix.length :=
      List.length_append _ _
    have hidx : (p ++ suffix).length - suffix.length = p.length := by omega
    refine ⟨⟨by omega, ?_⟩, ?_⟩
    · rw [hidx, List.drop_left]
    · rw [hidx, List.take_left]
      exact halpha

theorem not_anchored_of_nonalpha_head (suffix u : List Char) (c : Char)
    (t : List Char) (hc : c.isAlpha = false)
    (hlen : suffix.length ≤ t.length) :
    anchored_alpha_match suffix (u ++ c :: t) = false := by
  rw [Bool.eq_false_iff]
  intro h
  obtain ⟨p, hp, halpha, hdata⟩ := (anchored_alpha_match_iff _ _).mp h
  have hplen : p.length + suffix.length = u.length + (t.length + 1) := by
    have := congrArg List.length hdata
    simp [List.length_append] at this
    omega
  have hup : u.length + 1 ≤ p.length := by omega
  obtain ⟨k, hk⟩ : ∃ k, p.length - u.length = k + 1 :=
    ⟨p.length - u.length - 1, by omega⟩
  have hcp : c ∈ p := by
    have htake : p = (u ++ c :: t).take p.length := by
      rw [hdata, List.take_left]
    rw [htake, List.take_append_eq_append_take,
      List.take_of_length_le (by omega), hk, List.take_succ_cons]
    exact List.mem_append_right _ (List.mem_cons_self _ _)
  rw [halpha c hcp] at hc
  cases hc

theorem zone_alpha_match_glob {e d v name : String}
    (h : zone_alpha_match e d v name = true) :
    glob_star (group_suffix e d v) name = true := by
  obtain ⟨p, hp, -, hname⟩ := (anchored_alpha_match_iff _ _).mp h
  have hidx : name.data.length - (group_suffix e d v).data.length =
      p.length := by
    rw [hname, List.length_append]
    omega
  simp only [glob_star, Bool.and_eq_true, decide_eq_true_eq]
  refine ⟨by rw [hname, List.length_append]; omega, ?_⟩
  rw [hidx, hname, List.drop_left]

theorem mem_select_rasters {files : List String} {e d v name : String} :
    name ∈ select_rasters files e d v ↔
      name ∈ files ∧ zone_alpha_match e d v name = true := by
  simp only [select_rasters, List.mem_filter, Bool.and_eq_true]
  constructor
  · rintro ⟨hf, -, hm⟩
    exact ⟨hf, hm⟩
  · rintro ⟨hf, hm⟩
    exact ⟨hf, zone_alpha_match_glob hm, hm⟩

theorem mem_combine_tasks {files event_list dur_list : List String}
    {rs : List String} {e d v : String} :
    (rs, e, d, v) ∈ combine_tasks files event_list dur_list ↔
      e ∈ event_list ∧ d ∈ dur_list ∧ rs = select_rasters files e d v ∧
        rs.length > 1 ∧ (v = "" ∨ (e = "100" ∧ (v = "u" ∨ v = "l"))) := by
  constructor
  · intro h
    obtain ⟨e', he', h⟩ := List.mem_flatMap.mp h
    obtain ⟨d', hd', h⟩ := List.mem_flatMap.mp h
    rcases List.mem_append.mp h with h | h
    · by_cases hl : (select_rasters files e' d' "").length > 1
      · rw [if_pos hl] at h
        rw [List.mem_singleton, Prod.mk.injEq, Prod.mk.injEq,
          Prod.mk.injEq] at h
        obtain ⟨h1, h2, h3, h4⟩ := h
        subst h2
        subst h3
        subst h4
        subst h1
        exact ⟨he', hd', rfl, hl, Or.inl rfl⟩
      · rw [if_neg hl] at h
        cases h
    · by_cases h100 : e' = "100"
      · rw [if_pos h100] at h
        obtain ⟨ci, hci, h⟩ := List.mem_flatMap.mp h
        by_cases hl : (select_rasters files e' d' ci).length > 1
        · rw [if_pos hl] at h
          rw [List.mem_singleton, Prod.mk.injEq, Prod.mk.injEq,
            Prod.mk.injEq] at h
          obtain ⟨h1, h2, h3, h4⟩ := h
          subst h2
          subst h3
          subst h4
          subst h1
          refine ⟨he', hd', rfl, hl, Or.inr ⟨h100, ?_⟩⟩
          simpa using hci
        · rw [if_neg hl] at h
          cases h
      · rw [if_neg h100] at h
        cases h
  · rintro ⟨he, hd, rfl, hl, hv⟩
    refine List.mem_flatMap.mpr ⟨e, he, List.mem_flatMap.mpr ⟨d, hd, ?_⟩⟩
    rcases hv with rfl | ⟨h100, hv⟩
    · exact List.mem_append_left _
        (by rw [if_pos hl]; exact List.mem_singleton.mpr rfl)
    · refine List.mem_append_right _ ?_
      rw [if_pos h100]
      refine List.mem_flatMap.mpr
        ⟨v, by rcases hv with rfl | rfl <;> simp, ?_⟩
      rw [if_pos hl]
      exact List.mem_singleton.mpr rfl

theorem zone_match_base_excludes_variant (z d e : String) (c : Char)
    (cs : List Char) (he : e.data = c :: cs) (hc : c.isAlpha = false)
    (v : Char) :
    zone_alpha_match e d "" (z ++ group_suffix e d (String.mk [v])) =
      false := by
  have hd : (z ++ group_suffix e d (String.mk [v])).data =
      z.data ++ c :: (cs ++ ['y', 'r'] ++ d.data ++
        ['a', v, '.', 'a', 's', 'c']) := by
    simp [group_suffix, String.data_append, he]
  have hsuf : (group_suffix e d "").data.length =
      e.data.length + d.data.length + 7 := by
    simp [group_suffix, String.data_append]
    omega
  rw [zone_alpha_match, hd]
  apply not_anchored_of_nonalpha_head
  · exact hc
  · simp [hsuf, List.length_append, he]
    omega

/-- **C6**: `combine_multiple_zones` selects each (event, duration,
variant) group's files by an exact start-and-end-anchored filename match —
a nonempty letters-only zone prefix followed by exactly the event, `yr`,
the duration, `a`, the variant and `.asc` — so a 1000-year file never
enters a 100-year group and an upper/lower file never enters a base
group; a group with fewer than 2 matching files yields no mosaic task
(its single file is left untouched), and every group with 2 or more files
yields exactly the task mosaicking those files. -/
theorem combine_multiple_zones_exact_groups :
    (∀ (files : List String) (e d v name : String),
      name ∈ select_rasters files e d v ↔
        name ∈ files ∧ ∃ p : List Char, p ≠ [] ∧
          (∀ c ∈ p, c.isAlpha = true) ∧
          name.data = p ++ (group_suffix e d v).data) ∧
    (∀ z d : String,
      zone_alpha_match "100" d "" (z ++ group_suffix "1000" d "") =
        false) ∧
    (∀ z d e : String, e ∈ VALID_EVENTS →
      zone_alpha_match e d "" (z ++ group_suffix e d "u") = false ∧
      zone_alpha_match e d "" (z ++ group_suffix e d "l") = false) ∧
    (∀ (files event_list dur_list rs : List String) (e d v : String),
      (rs, e, d, v) ∈ combine_tasks files event_list dur_list ↔
        e ∈ event_list ∧ d ∈ dur_list ∧ rs = select_rasters files e d v ∧
          rs.length > 1 ∧ (v = "" ∨ (e = "100" ∧ (v = "u" ∨ v = "l")))) := by
  refine ⟨?_, ?_, ?_, ?_⟩
  · intro files e d v name
    rw [mem_select_rasters, zone_alpha_match, anchored_alpha_match_iff]
  · intro z d
    have hd : (z ++ group_suffix "1000" d "").data =
        z.data ++ '1' :: (['0', '0', '0', 'y', 'r'] ++ d.data ++
          ['a', '.', 'a', 's', 'c']) := by
      simp [group_suffix, String.data_append]
    have hsuf : (group_suffix "100" d "").data.length =
        d.data.length + 10 := by
      simp [group_suffix, String.data_append]
    rw [zone_alpha_match, hd]
    apply not_anchored_of_nonalpha_head
    · rfl
    · simp [hsuf, List.length_append]
  · intro z d e he
    constructor
    · fin_cases he <;>
        exact zone_match_base_excludes_variant z d _ _ _ rfl (by decide) 'u'
    · fin_cases he <;>
        exact zone_match_base_excludes_variant z d _ _ _ rfl (by decide) 'l'
  · intro files event_list dur_list rs e d v
    exact mem_combine_tasks

/-- Witness for C6: the 100-year upper-variant file `se100yr24hau.asc` is
rejected from the 100-year/24-hour base group, and the 1000-year file
`se1000yr24ha.asc` is rejected from that group too. -/
theorem combine_multiple_zones_exact_groups_witness :
    "100" ∈ VALID_EVENTS ∧
    zone_alpha_match "100" "24h" ""
        ("se" ++ group_suffix "100" "24h" "u") = false ∧
    zone_alpha_match "100" "24h" ""
        ("se" ++ group_suffix "1000" "24h" "") = false :=
  ⟨by decide,
    (combine_multiple_zones_exact_groups.2.2.1 "se" "24h" "100"
      (by decide)).1,
    combine_multiple_zones_exact_groups.2.1 "se" "24h"⟩

/-- **C7**: `process_grids` raises its validation error whenever the
requested event list is not a subset of `VALID_EVENTS` or the duration
list is not a subset of `VALID_DURATIONS`, and the failure occurs before
any network or disk I/O: the validation error is returned for *every*
environment oracle, with no zone resolution, no download task, no
directory and no output produced (the error branch precedes them all). -/
theorem process_grids_validates_before_io :
    (∀ (o : Oracle) (event_list dur_list : List String) (CI_100yr : Bool),
      ¬ (∀ e ∈ event_list, e ∈ VALID_EVENTS) →
      process_grids o event_list dur_list CI_100yr =
        .error .invalidEvents) ∧
    (∀ (o : Oracle) (event_list dur_list : List String) (CI_100yr : Bool),
      (∀ e ∈ event_list, e ∈ VALID_EVENTS) →
      ¬ (∀ d ∈ dur_list, d ∈ VALID_DURATIONS) →
      process_grids o event_list dur_list CI_100yr =
        .error .invalidDurations) := by
  constructor
  · intro o event_list dur_list CI_100yr h
    simp [process_grids, h]
  · intro o event_list dur_list CI_100yr he hd
    simp only [process_grids]
    rw [if_neg (not_not_intro he), if_pos hd]

/-- Witness for C7: the invalid event `"3"` fails validation for a
concrete oracle, whatever it would have resolved or fetched. -/
theorem process_grids_validates_before_io_witness :
    ¬ (∀ e ∈ (["3"] : List String), e ∈ VALID_EVENTS) ∧
    process_grids ⟨["se", "orb"], ["se100yr24ha.asc"],
        fun _ => ⟨(1, 1), ⟨1, 0, 0, 0, 1, 0⟩⟩⟩ ["3"] ["24h"] true =
      .error .invalidEvents :=
  ⟨by decide,
    process_grids_validates_before_io.1
      ⟨["se", "orb"], ["se100yr24ha.asc"],
        fun _ => ⟨(1, 1), ⟨1, 0, 0, 0, 1, 0⟩⟩⟩ ["3"] ["24h"] true
      (by decide)⟩

set_option maxHeartbeats 1000000 in
theorem comb_no_collision : ∀ e ∈ VALID_EVENTS, ∀ d ∈ VALID_DURATIONS,
    ∀ dur ∈ VALID_DURATIONS, ∀ v ∈ ["", "u", "l"],
    (e = "100" ∧ d = dur ∧ v = "") ∨
      glob_star ("100yr" ++ dur ++ "a.asc") (comb_name e d v) = false := by
  decide

/-- **C10**: When more than one zone is resolved, `process_grids` directs
the confidence-interval step to search only the `NOAA_grids_mosaic`
directory; therefore for a duration whose 100-year base group contained
fewer than 2 fetched files (so no `comb100yr{dur}a.asc` mosaic was
written), that duration's confidence computation is skipped with the
missing-files warning even though a fetched single-zone raster for it
exists in `NOAA_grids`. -/
theorem process_grids_multizone_ci_searches_mosaic_only
    (o : Oracle) (event_list l1 l2 : List String) (dur : String)
    (CI_100yr : Bool)
    (hev : ∀ e ∈ event_list, e ∈ VALID_EVENTS)
    (hdv : ∀ d ∈ l1 ++ dur :: l2, d ∈ VALID_DURATIONS)
    (h100 : "100" ∈ event_list) (hCI : CI_100yr = true)
    (hzones : 1 < o.zones.length)
    (hfew : (select_rasters o.fetched "100" dur "").length < 2)
    (hexists : ∃ f ∈ o.fetched, zone_alpha_match "100" dur "" f = true) :
    process_grids o event_list (l1 ++ dur :: l2) CI_100yr =
      .ok ⟨file_tasks o.zones event_list (l1 ++ dur :: l2) CI_100yr
            "NOAA_grids",
          "NOAA_grids_mosaic",
          mosaic_outputs o.fetched event_list (l1 ++ dur :: l2),
          some (process_confidence_intervals
              (mosaic_outputs o.fetched event_list (l1 ++ dur :: l2))
              o.metas l1 ++
            CIOutcome.skippedMissing ::
              process_confidence_intervals
                (mosaic_outputs o.fetched event_list (l1 ++ dur :: l2))
                o.metas l2)⟩ := by
  have hdur : dur ∈ VALID_DURATIONS := hdv dur (by simp)
  have hbase_none : first_glob
      (mosaic_outputs o.fetched event_list (l1 ++ dur :: l2))
      ("100yr" ++ dur ++ "a.asc") = none := by
    rw [first_glob, List.filter_eq_nil_iff.mpr, List.head?_nil]
    intro name hname
    obtain ⟨⟨rs, e', d', v'⟩, ht, rfl⟩ := List.mem_map.mp hname
    obtain ⟨he', hd', hsel, hlen, hv'⟩ := mem_combine_tasks.mp ht
    have he'V : e' ∈ VALID_EVENTS := hev e' he'
    have hd'V : d' ∈ VALID_DURATIONS := hdv d' hd'
    have hv'3 : v' ∈ (["", "u", "l"] : List String) := by
      rcases hv' with rfl | ⟨-, rfl | rfl⟩ <;> simp
    rcases comb_no_collision e' he'V d' hd'V dur hdur v' hv'3 with
      ⟨rfl, rfl, rfl⟩ | hglob
    · subst hsel
      omega
    · simp [hglob]
  have hskip : ci_run_one
      (mosaic_outputs o.fetched event_list (l1 ++ dur :: l2)) o.metas dur =
      .skippedMissing := by
    cases hu : first_glob
        (mosaic_outputs o.fetched event_list (l1 ++ dur :: l2))
        ("100yr" ++ dur ++ "au.asc") <;>
      cases hl2 : first_glob
          (mosaic_outputs o.fetched event_list (l1 ++ dur :: l2))
          ("100yr" ++ dur ++ "al.asc") <;>
      simp [ci_run_one, hbase_none, hu, hl2]
  simp only [process_grids]
  rw [if_neg (not_not_intro hev), if_neg (not_not_intro hdv),
    if_pos hzones, if_pos ⟨h100, hCI⟩]
  rw [process_confidence_intervals, List.map_append, List.map_cons, hskip]
  rfl

/-- Witness for C10: two zones resolved but only one fetched file
`se100yr24ha.asc` for the 100-year/24-hour group — the mosaic folder holds
no comb raster, so the 24-hour confidence computation is skipped even
though the single-zone raster sits in `NOAA_grids`. -/
theorem process_grids_multizone_ci_searches_mosaic_only_witness :
    (∀ e ∈ (["100"] : List String), e ∈ VALID_EVENTS) ∧
    (∀ d ∈ ([] : List String) ++ "24h" :: [], d ∈ VALID_DURATIONS) ∧
    "100" ∈ (["100"] : List String) ∧
    1 < (["se", "orb"] : List String).length ∧
    (select_rasters ["se100yr24ha.asc"] "100" "24h" "").length < 2 ∧
    (∃ f ∈ (["se100yr24ha.asc"] : List String),
      zone_alpha_match "100" "24h" "" f = true) ∧
    process_grids ⟨["se", "orb"], ["se100yr24ha.asc"],
        fun _ => ⟨(1, 1), ⟨1, 0, 0, 0, 1, 0⟩⟩⟩ ["100"]
        ([] ++ "24h" :: []) true =
      .ok ⟨file_tasks ["se", "orb"] ["100"] ([] ++ "24h" :: []) true
            "NOAA_grids",
          "NOAA_grids_mosaic",
          mosaic_outputs ["se100yr24ha.asc"] ["100"] ([] ++ "24h" :: []),
          some (process_confidence_intervals
              (mosaic_outputs ["se100yr24ha.asc"] ["100"]
                ([] ++ "24h" :: []))
              (fun _ => ⟨(1, 1), ⟨1, 0, 0, 0, 1, 0⟩⟩) [] ++
            CIOutcome.skippedMissing ::
              process_confidence_intervals
                (mosaic_outputs ["se100yr24ha.asc"] ["100"]
                  ([] ++ "24h" :: []))
                (fun _ => ⟨(1, 1), ⟨1, 0, 0, 0, 1, 0⟩⟩) [])⟩ :=
  ⟨by decide, by decide, by decide, by decide, by decide,
    ⟨"se100yr24ha.asc", by decide, by decide⟩,
    process_grids_multizone_ci_searches_mosaic_only
      ⟨["se", "orb"], ["se100yr24ha.asc"],
        fun _ => ⟨(1, 1), ⟨1, 0, 0, 0, 1, 0⟩⟩⟩ ["100"] [] [] "24h" true
      (by decide) (by decide) (by decide) rfl (by decide) (by decide)
      ⟨"se100yr24ha.asc", by decide, by decide⟩⟩

end NOAA
